import Mathlib

/-!
Verification of the Cloudflare Worker comment system
(`src/index.js` of the repository) against its natural-language
specification.

The worker's pure logic — sanitization, validation, URL checking,
admin-secret resolution, the four request handlers and the router —
is shallowly embedded below. JavaScript strings are modelled by Lean
`String` (a list of Unicode scalar values; the code paths exercised
here never depend on UTF-16 surrogate-pair length counting). The D1
database is modelled as an in-memory table: a list of rows kept in
insertion (rowid) order together with the AUTOINCREMENT counter and a
clock supplying `CURRENT_TIMESTAMP` values; the SQL `ORDER BY
created_at ASC` of the engine is modelled as a sort by
`(created_at, id)`, the tie order asserted by the spec. The WHATWG
`new URL(...)` constructor used by `isValidUrl` is platform code and
is modelled by `isValidUrl` below, faithful to the URL Standard on
the fragment exercised: scheme parsing, the special-scheme authority
with its mandatory non-empty host, and opaque-path URLs such as
`mailto:` which parse successfully with no host at all.
-/

namespace CommentSystem

/-- Whitespace as recognized by JavaScript `String.prototype.trim`:
the `WhiteSpace` and `LineTerminator` productions of ECMAScript. -/
def jsWs (c : Char) : Bool :=
  [9, 10, 11, 12, 13, 32, 160, 5760, 8192, 8193, 8194, 8195, 8196,
   8197, 8198, 8199, 8200, 8201, 8202, 8232, 8233, 8239, 8287, 12288,
   65279].contains c.toNat

/-- JavaScript `s.trim()` on the character list of `s`. -/
def jsTrim (l : List Char) : List Char :=
  ((l.dropWhile jsWs).reverse.dropWhile jsWs).reverse

/-- JavaScript `s.trim()` as a `String` operation. -/
def jsTrimStr (s : String) : String :=
  String.mk (jsTrim s.data)

/-- JavaScript `s.replace(/c/g, rep)` for a single-character pattern:
every occurrence of `c` is replaced by `rep`. -/
def repChar (c : Char) (rep : List Char) : List Char → List Char
  | [] => []
  | x :: xs => (if x = c then rep else [x]) ++ repChar c rep xs

/-- The single quote character, `'`. -/
def quoteS : Char := Char.ofNat 39

/-- The double quote character, `"`. -/
def quoteD : Char := Char.ofNat 34

/-- Embedding of `sanitizeInput` (src/index.js:31-38): trim, then the
four global replacements `<` → `&lt;`, `>` → `&gt;`, `"` → `&quot;`,
`'` → `&#39;`, applied in that order. -/
def sanitizeInput (s : String) : String :=
  String.mk
    (repChar quoteS "&#39;".data
      (repChar quoteD "&quot;".data
        (repChar '>' "&gt;".data
          (repChar '<' "&lt;".data (jsTrim s.data)))))

/-- Character-wise escaping of exactly the four characters replaced by
`sanitizeInput`; every other character (in particular `&`) is kept. -/
def escChar4 (c : Char) : List Char :=
  if c = '<' then "&lt;".data
  else if c = '>' then "&gt;".data
  else if c = quoteD then "&quot;".data
  else if c = quoteS then "&#39;".data
  else [c]

/-- Character-wise escaping of a whole list via `escChar4`. -/
def escapeHtml4 : List Char → List Char
  | [] => []
  | c :: cs => escChar4 c ++ escapeHtml4 cs

/-! ### The WHATWG URL constructor, modelled

`isValidUrl` (src/index.js:21-28) is `try { new URL(s); return true }
catch { return false }`. The URL Standard's parser is platform code;
the model below follows it: input is trimmed of C0-control/space and
stripped of tab/LF/CR; a scheme (ASCII-alpha first, then alphanumeric
or `+ - .`, ended by `:`) is mandatory. Special non-file schemes skip
any run of slashes, then parse an authority: optional userinfo up to
the last `@` (an empty host after a present `@` fails), then either
an IPv6 literal in brackets or a domain — percent-decoded, checked
against the forbidden domain code points, and run through the IPv4
parser when it ends in a number — then an optional all-digit port of
value at most 65535. A `file` URL with exactly two slashes parses its
authority the same way but admits the empty host and a Windows drive
letter and no port; other slash counts leave only a path. Non-special
schemes with a `//` authority take an opaque host (forbidden host
code points, `%` allowed) plus the port rule; without `//` they are
opaque paths and always succeed. Deliberately out of scope: IDNA
(domain-to-ASCII) failures — non-ASCII domains are accepted
wholesale. -/

/-- WHATWG URL input preprocessing: trim C0-control-or-space at both
ends, then remove every tab, LF and CR. -/
def preprocessUrl (s : String) : List Char :=
  (((s.data.dropWhile (fun c => c.toNat ≤ 32)).reverse.dropWhile
      (fun c => c.toNat ≤ 32)).reverse).filter
    (fun c => !(c.toNat == 9 || c.toNat == 10 || c.toNat == 13))

/-- Characters allowed after the first one in a URL scheme. -/
def isSchemeChar (c : Char) : Bool :=
  c.isAlphanum || c = '+' || c = '-' || c = '.'

/-- Scheme scanner: consume scheme characters until `:`. -/
def schemeLoop (acc : List Char) : List Char → Option (List Char × List Char)
  | [] => none
  | c :: rest =>
    if c = ':' then some (acc.reverse, rest)
    else if isSchemeChar c then schemeLoop (c :: acc) rest
    else none

/-- Split `scheme : rest`; fails when the input does not start with an
ASCII letter or no `:` terminates a well-formed scheme. -/
def splitScheme : List Char → Option (List Char × List Char)
  | [] => none
  | c :: rest => if c.isAlpha then schemeLoop [c] rest else none

/-- The special schemes of the URL Standard. -/
def specialSchemes : List String := ["ftp", "file", "http", "https", "ws", "wss"]

/-- The backslash character. -/
def backslashC : Char := Char.ofNat 92

/-- Forbidden host code points (URL Standard): NUL, tab, LF, CR,
space, `#`, `/`, `:`, `<`, `>`, `?`, `@`, `[`, `\`, `]`, `^`, `|`. -/
def forbiddenHostChar (c : Char) : Bool :=
  c.toNat == 0 || c.toNat == 9 || c.toNat == 10 || c.toNat == 13 ||
  c == ' ' || c == '#' || c == '/' || c == ':' || c == '<' || c == '>' ||
  c == '?' || c == '@' || c == '[' || c == backslashC || c == ']' ||
  c == '^' || c == '|'

/-- Forbidden domain code points: the forbidden host code points plus
every C0 control, `%` and DEL. -/
def forbiddenDomainChar (c : Char) : Bool :=
  forbiddenHostChar c || c.toNat ≤ 31 || c == '%' || c.toNat == 127

/-- Value of a hexadecimal digit, `none` for other characters. -/
def hexVal (c : Char) : Option Nat :=
  if c.toNat ≥ 48 && c.toNat ≤ 57 then some (c.toNat - 48)
  else if c.toNat ≥ 97 && c.toNat ≤ 102 then some (c.toNat - 87)
  else if c.toNat ≥ 65 && c.toNat ≤ 70 then some (c.toNat - 55)
  else none

/-- ASCII hexadecimal digit. -/
def isHexChar (c : Char) : Bool :=
  (hexVal c).isSome

/-- Value of a decimal digit list. -/
def digitsVal (l : List Char) : Nat :=
  l.foldl (fun a c => a * 10 + (c.toNat - 48)) 0

/-- WHATWG percent-decoding: a valid `%XX` escape becomes the byte it
encodes; malformed escapes pass through unchanged. -/
def pctDecode : List Char → List Char
  | [] => []
  | '%' :: a :: b :: rest =>
    match hexVal a, hexVal b with
    | some ha, some hb => Char.ofNat (16 * ha + hb) :: pctDecode rest
    | _, _ => '%' :: pctDecode (a :: b :: rest)
  | c :: rest => c :: pctDecode rest

/-- Split a character list on a separator, keeping empty fields. -/
def splitCh (sep : Char) : List Char → List (List Char)
  | [] => [[]]
  | c :: rest =>
    if c = sep then [] :: splitCh sep rest
    else
      match splitCh sep rest with
      | h :: t => (c :: h) :: t
      | [] => [[c]]

/-- WHATWG IPv4 number: hexadecimal after `0x`/`0X`, octal after a
leading `0` of a longer numeral, decimal otherwise. -/
def ipv4Num (part : List Char) : Option Nat :=
  if part.isEmpty then none
  else if part.take 2 = ['0', 'x'] || part.take 2 = ['0', 'X'] then
    let rest := part.drop 2
    if rest.all isHexChar then
      some (rest.foldl (fun a c => a * 16 + (hexVal c).getD 0) 0)
    else none
  else if part.length ≥ 2 && part.head? == some '0' then
    let rest := part.drop 1
    if rest.all (fun c => c.toNat ≥ 48 && c.toNat ≤ 55) then
      some (rest.foldl (fun a c => a * 8 + (c.toNat - 48)) 0)
    else none
  else if part.all Char.isDigit then some (digitsVal part)
  else none

/-- WHATWG IPv4 host parsing: at most four dot-separated numbers (one
trailing dot allowed), all but the last at most 255, the last small
enough for the remaining bytes. -/
def parseIPv4 (host : List Char) : Bool :=
  let parts0 := splitCh '.' host
  let parts := if parts0.getLast? == some [] then parts0.dropLast else parts0
  if parts.isEmpty || parts.length > 4 then false
  else
    match parts.mapM ipv4Num with
    | none => false
    | some ns =>
      ns.dropLast.all (fun v => v ≤ 255) &&
      (match ns.getLast? with
       | some v => decide (v < 256 ^ (5 - ns.length))
       | none => false)

/-- The ends-in-a-number check that routes a domain into the IPv4
parser: its last dotted label (ignoring one trailing dot) is all
digits or a `0x` hexadecimal numeral. -/
def endsInNumber (host : List Char) : Bool :=
  let parts0 := splitCh '.' host
  let parts := if parts0.getLast? == some [] then parts0.dropLast else parts0
  match parts.getLast? with
  | none => false
  | some last =>
    (!last.isEmpty && last.all Char.isDigit) ||
    ((last.take 2 = ['0', 'x'] || last.take 2 = ['0', 'X']) &&
      (last.drop 2).all isHexChar)

/-- A decimal octet of an IPv4 tail inside an IPv6 literal: one to
three digits, no leading zero, value at most 255. -/
def ipv6V4Octet (p : List Char) : Bool :=
  !p.isEmpty && p.length ≤ 3 && p.all Char.isDigit &&
  (p.length == 1 || !(p.head? == some '0')) && digitsVal p ≤ 255

/-- The IPv4 tail of an IPv6 literal: exactly four octets. -/
def ipv4InIpv6 (l : List Char) : Bool :=
  let parts := splitCh '.' l
  parts.length == 4 && parts.all ipv6V4Octet

/-- IPv6 address syntax between brackets: colon-separated groups of
at most four hexadecimal digits, an optional final IPv4 tail counting
as two groups, eight groups in total or fewer with exactly one `::`
compression (which must stand for at least one group). -/
def parseIPv6 (inside : List Char) : Bool :=
  if inside.isEmpty then false
  else
    let parts := splitCh ':' inside
    let n := parts.length
    let partOk : Nat × List Char → Bool := fun ip =>
      ip.2.isEmpty || (ip.2.length ≤ 4 && ip.2.all isHexChar) ||
      (ip.1 + 1 == n && ip.2.contains '.' && ipv4InIpv6 ip.2)
    let weight : List Char → Nat := fun p =>
      if p.isEmpty then 0 else if p.contains '.' then 2 else 1
    let total := (parts.map weight).sum
    let empties := parts.enum.filterMap
      (fun ip => if ip.2.isEmpty then some ip.1 else none)
    parts.enum.all partOk &&
    (match empties with
     | [] => total == 8
     | [i] => decide (0 < i) && decide (i + 1 < n) && total ≤ 7
     | [i, j] =>
       ((i == 0 && j == 1) || (i + 2 == n && j + 1 == n)) && n ≥ 3 && total ≤ 7
     | [i, j, k] => i == 0 && j == 1 && k == 2 && n == 3 && total ≤ 7
     | _ => false)

/-- A port string: empty, or digits of value at most 65535. -/
def portOk (p : List Char) : Bool :=
  p.all Char.isDigit && (p.isEmpty || digitsVal p ≤ 65535)

/-- Opaque host of a non-special scheme: no forbidden host code
point; may be empty; `%` is allowed undecoded. -/
def opaqueHostOk (host : List Char) : Bool :=
  host.all (fun c => !forbiddenHostChar c)

/-- Special-scheme domain: percent-decode, reject forbidden domain
code points and the empty host, and run the IPv4 parser when the
result ends in a number. -/
def domainOk (host : List Char) : Bool :=
  let d := pctDecode host
  !d.isEmpty && d.all (fun c => !forbiddenDomainChar c) &&
  (!endsInNumber d || parseIPv4 d)

/-- Host and optional port of an authority whose userinfo is already
removed: a bracketed IPv6 literal or a domain/opaque host, then `:`
and a port. -/
def hostPortOk (special : Bool) (hp : List Char) : Bool :=
  match hp with
  | '[' :: rest =>
    let inside := rest.takeWhile (fun c => c ≠ ']')
    let after := rest.dropWhile (fun c => c ≠ ']')
    (match after with
     | [] => false
     | _ :: rest2 =>
       parseIPv6 inside &&
       (match rest2 with
        | [] => true
        | ':' :: p => portOk p
        | _ => false))
  | _ =>
    let host := hp.takeWhile (fun c => c ≠ ':')
    let port := (hp.dropWhile (fun c => c ≠ ':')).drop 1
    portOk port && (if special then domainOk host else opaqueHostOk host)

/-- An authority: userinfo up to the last `@` is unconstrained, but a
present `@` with an empty host fails; the rest is host and port. -/
def authorityOk (special : Bool) (auth : List Char) : Bool :=
  let hasAt := auth.contains '@'
  let hp := if hasAt then (auth.reverse.takeWhile (fun c => c ≠ '@')).reverse else auth
  if hasAt && hp.isEmpty then false
  else hostPortOk special hp

/-- Slash for authority purposes (`\` counts for special schemes). -/
def isSlashC (c : Char) : Bool :=
  c == '/' || c == backslashC

/-- A Windows drive letter: an ASCII letter then `:` or `|`. -/
def windowsDrive (l : List Char) : Bool :=
  match l with
  | [a, b] => a.isAlpha && (b == ':' || b == '|')
  | _ => false

/-- The host of a `file://` authority: empty, a Windows drive letter
(which becomes a path), a bracketed IPv6 literal, or a domain — and
never a port. -/
def fileHostOk (auth : List Char) : Bool :=
  if auth.isEmpty then true
  else if windowsDrive auth then true
  else
    match auth with
    | '[' :: rest =>
      let inside := rest.takeWhile (fun c => c ≠ ']')
      let after := rest.dropWhile (fun c => c ≠ ']')
      (match after with
       | [_] => parseIPv6 inside
       | _ => false)
    | _ => domainOk auth

/-- Model of `new URL(s)` succeeding (hence of `isValidUrl`,
src/index.js:21-28). -/
def isValidUrl (s : String) : Bool :=
  match splitScheme (preprocessUrl s) with
  | none => false
  | some (schemeCs, rest) =>
    let scheme := String.mk (schemeCs.map Char.toLower)
    if scheme = "file" then
      let slashes := rest.takeWhile isSlashC
      let body := rest.drop slashes.length
      if slashes.length == 2 then
        fileHostOk (body.takeWhile (fun c => !(isSlashC c || c == '?' || c == '#')))
      else true
    else if specialSchemes.contains scheme then
      let r1 := rest.dropWhile isSlashC
      authorityOk true (r1.takeWhile (fun c => !(isSlashC c || c == '?' || c == '#')))
    else
      match rest with
      | '/' :: '/' :: r2 =>
        authorityOk false (r2.takeWhile (fun c => !(c == '/' || c == '?' || c == '#')))
      | _ => true

/-- A row of the `comments` table (schema.sql): `id` INTEGER PRIMARY
KEY AUTOINCREMENT, `page_url`, `author_name`, `comment_content`,
`created_at` TIMESTAMP DEFAULT CURRENT_TIMESTAMP, `status` TEXT. -/
structure Row where
  id : Nat
  page_url : String
  author_name : String
  comment_content : String
  created_at : Nat
  status : String
deriving DecidableEq

/-- The D1 database: rows in insertion (rowid) order, the
AUTOINCREMENT counter, and a clock supplying `CURRENT_TIMESTAMP`. -/
structure DB where
  rows : List Row
  nextId : Nat
  clock : Nat
deriving DecidableEq

/-- The worker environment: `env.ADMIN_SECRET_KEY`, either undefined
(`none`) or a bound string (possibly empty). -/
structure Env where
  adminSecretKey : Option String
deriving DecidableEq

/-- JSON body of `POST /api/comments`; each field is absent or a
string (non-string JSON values are out of the model's scope). -/
structure CommentBody where
  page_url : Option String
  author_name : Option String
  comment_content : Option String
deriving DecidableEq

/-- Response bodies, abstracted from their JSON serialization. -/
inductive RespBody where
  | empty
  | text (s : String)
  | jsonError (msg : String)
  | jsonComments (comments : List Row)
  | jsonCreated (comment : Option Row)
  | jsonDeleted
  | htmlPage
deriving DecidableEq

/-- An HTTP response: status code and body. The `{comments, count}`
envelope's `count` is the list length and is left implicit. -/
structure Response where
  status : Nat
  body : RespBody
deriving DecidableEq

/-- JavaScript falsiness of a possibly-absent string: `null`/absent
and the empty string are falsy. -/
def falsyStr : Option String → Bool
  | none => true
  | some s => s == ""

/-- Embedding of `env.ADMIN_SECRET_KEY || 'admin-secret-key'`
(src/index.js:205, 293, 378): the environment value when bound and
non-empty, else the hardcoded development default. -/
def resolveSecret (env : Env) : String :=
  match env.adminSecretKey with
  | some s => if s = "" then "admin-secret-key" else s
  | none => "admin-secret-key"

/-- Modelled from the spec: the three-tier resolution chain of
SecretStore.resolve — the durable KV value under the well-known key
when present, else the statically configured fallback, else the fixed
development default. No KV namespace exists in src/index.js; this
definition exists only to compare the spec's words with the code. -/
def resolveSecretSpec (kvSecret : Option String) (configFallback : Option String) : String :=
  match kvSecret with
  | some s => s
  | none =>
    match configFallback with
    | some s => s
    | none => "admin-secret-key"

/-- The admin guard `!secret || secret !== adminSecret`, negated:
a request is authorized when its `secret` query parameter is truthy
and equal to the resolved admin secret (src/index.js:207, 295, 380). -/
def isAuthorized (secretParam : Option String) (env : Env) : Bool :=
  !falsyStr secretParam && (secretParam.getD "" == resolveSecret env)

/-! ### SQL ordering model -/

/-- Result order of `ORDER BY created_at ASC`: ascending
`created_at`, ties broken by `id` ascending (the spec's stated
invariant for the modelled engine). -/
def rowLe (a b : Row) : Prop :=
  a.created_at < b.created_at ∨ (a.created_at = b.created_at ∧ a.id ≤ b.id)

instance : DecidableRel rowLe := fun a b => by
  unfold rowLe; exact inferInstance

instance : IsTotal Row rowLe :=
  ⟨fun a b => by unfold rowLe; omega⟩

instance : IsTrans Row rowLe :=
  ⟨fun a b c hab hbc => by unfold rowLe at *; omega⟩

/-- Result order of `ORDER BY created_at DESC` (admin listing):
descending `created_at`, ties broken by `id` ascending. -/
def rowGe (a b : Row) : Prop :=
  b.created_at < a.created_at ∨ (a.created_at = b.created_at ∧ a.id ≤ b.id)

instance : DecidableRel rowGe := fun a b => by
  unfold rowGe; exact inferInstance

/-! ### Request handlers -/

/-- Embedding of `getComments` (src/index.js:41-104): 400 when the
`page_url` parameter is falsy or fails `isValidUrl`; otherwise the
`status = approved` rows of that page, ordered by `created_at`. -/
def getComments (pageUrlParam : Option String) (db : DB) : Response :=
  if falsyStr pageUrlParam then
    ⟨400, .jsonError "page_url parameter is required"⟩
  else
    let pu := pageUrlParam.getD ""
    if !isValidUrl pu then ⟨400, .jsonError "Invalid page_url format"⟩
    else
      ⟨200, .jsonComments (List.insertionSort rowLe
        (db.rows.filter (fun r => r.page_url == pu && r.status == "approved")))⟩

/-- Validation of `page_url` in `createComment` (src/index.js:115-119). -/
def validatePageUrl (o : Option String) : List String :=
  if falsyStr o then ["page_url is required"]
  else if !isValidUrl (o.getD "") then ["Invalid page_url format"]
  else []

/-- Validation of `author_name` in `createComment` (src/index.js:121-127). -/
def validateName (o : Option String) : List String :=
  if falsyStr o then ["author_name is required"]
  else if (jsTrimStr (o.getD "")).length = 0 then ["author_name cannot be empty"]
  else if (jsTrimStr (o.getD "")).length > 100 then
    ["author_name must be 100 characters or less"]
  else []

/-- Validation of `comment_content` in `createComment`
(src/index.js:129-135). -/
def validateContent (o : Option String) : List String :=
  if falsyStr o then ["comment_content is required"]
  else if (jsTrimStr (o.getD "")).length = 0 then ["comment_content cannot be empty"]
  else if (jsTrimStr (o.getD "")).length > 1000 then
    ["comment_content must be 1000 characters or less"]
  else []

/-- The full validation of `createComment` (src/index.js:112-135):
one `errors` array, each field contributing independently. -/
def validateSubmission (b : CommentBody) : List String :=
  validatePageUrl b.page_url ++ validateName b.author_name ++
    validateContent b.comment_content

/-- The row inserted by `createComment` (src/index.js:150-159):
sanitized fields — each `sanitizeInput(field.trim())` — the next
AUTOINCREMENT id, the current timestamp and status `approved`. -/
def mkRow (b : CommentBody) (db : DB) : Row :=
  { id := db.nextId
    page_url := sanitizeInput (jsTrimStr (b.page_url.getD ""))
    author_name := sanitizeInput (jsTrimStr (b.author_name.getD ""))
    comment_content := sanitizeInput (jsTrimStr (b.comment_content.getD ""))
    created_at := db.clock
    status := "approved" }

/-- The database after the INSERT of `createComment`. -/
def insertDB (b : CommentBody) (db : DB) : DB :=
  { rows := db.rows ++ [mkRow b db], nextId := db.nextId + 1, clock := db.clock }

/-- Embedding of `createComment` (src/index.js:107-199). `none` for
the body models a request whose JSON parsing throws (caught as 500).
On success the row is inserted with sanitized fields and status
`approved`, and re-selected by `last_row_id` for the 201 echo. -/
def createComment (bodyOpt : Option CommentBody) (db : DB) : Response × DB :=
  match bodyOpt with
  | none => (⟨500, .jsonError "Failed to create comment"⟩, db)
  | some b =>
    let errors := validateSubmission b
    if errors ≠ [] then
      (⟨400, .jsonError (String.intercalate "; " errors)⟩, db)
    else
      (⟨201, .jsonCreated ((insertDB b db).rows.find? (fun r => r.id == db.nextId))⟩,
        insertDB b db)

/-- SQLite numeric affinity of binding a digit string against the
INTEGER `id` column. -/
def digitsToNat (s : String) : Nat :=
  s.data.foldl (fun a c => a * 10 + (c.toNat - 48)) 0

/-- Embedding of `deleteComment` (src/index.js:202-287): admin guard
first, then the `^\d+$` id check, then existence (404), then the
hard delete (200). -/
def deleteComment (secretParam : Option String) (env : Env) (commentId : String)
    (db : DB) : Response × DB :=
  if !isAuthorized secretParam env then (⟨401, .jsonError "Unauthorized"⟩, db)
  else if commentId == "" || !commentId.data.all Char.isDigit then
    (⟨400, .jsonError "Invalid comment ID"⟩, db)
  else
    let n := digitsToNat commentId
    if db.rows.any (fun r => r.id == n) then
      (⟨200, .jsonDeleted⟩, { db with rows := db.rows.filter (fun r => !(r.id == n)) })
    else (⟨404, .jsonError "Comment not found"⟩, db)

/-- Embedding of `getAllComments` (src/index.js:290-340): admin guard,
then every row regardless of status, ordered by `created_at` DESC. -/
def getAllComments (secretParam : Option String) (env : Env) (db : DB) : Response :=
  if !isAuthorized secretParam env then ⟨401, .jsonError "Unauthorized"⟩
  else ⟨200, .jsonComments (List.insertionSort rowGe db.rows)⟩

/-! ### Router -/

/-- HTTP request methods distinguished by the router. -/
inductive Method where
  | get | post | delete | options | other
deriving DecidableEq

/-- Strip a literal character-list prefix, returning the remainder. -/
def stripPre : List Char → List Char → Option (List Char)
  | [], l => some l
  | _ :: _, [] => none
  | a :: as, b :: bs => if a = b then stripPre as bs else none

/-- The route regex `^\/api\/comments\/(\d+)$` (src/index.js:370):
the captured group when the pathname matches. -/
def routeDelete (p : String) : Option String :=
  match stripPre "/api/comments/".data p.data with
  | none => none
  | some rest =>
    if !rest.isEmpty && rest.all Char.isDigit then some (String.mk rest) else none

/-- The `/admin` route body (src/index.js:376-391): 401 text without
a valid secret, else the admin HTML page. -/
def adminRoute (secretParam : Option String) (env : Env) : Response :=
  if !isAuthorized secretParam env then ⟨401, .text "Unauthorized"⟩
  else ⟨200, .htmlPage⟩

/-- Embedding of the default-export `fetch` router
(src/index.js:343-408), with the source's dispatch order: OPTIONS,
`/api/comments` (GET/POST/405), `/api/comments/all` GET, the DELETE
id route, `/admin` GET, `/comment-widget` GET, then the generic
fallback response. The arguments are the parts of the request the
worker reads: method, pathname, the `page_url` and `secret` query
parameters, and the JSON body. -/
def router (method : Method) (path : String) (pageUrlParam secretParam : Option String)
    (jsonBody : Option CommentBody) (env : Env) (db : DB) : Response × DB :=
  if method = .options then (⟨200, .empty⟩, db)
  else if path = "/api/comments" then
    match method with
    | .get => (getComments pageUrlParam db, db)
    | .post => createComment jsonBody db
    | _ => (⟨405, .text "Method not allowed"⟩, db)
  else if path = "/api/comments/all" ∧ method = .get then
    (getAllComments secretParam env db, db)
  else
    match routeDelete path, method with
    | some cid, .delete => deleteComment secretParam env cid db
    | _, _ =>
      if path = "/admin" ∧ method = .get then (adminRoute secretParam env, db)
      else if path = "/comment-widget" ∧ method = .get then (⟨200, .htmlPage⟩, db)
      else (⟨200, .text "Blog Comment System API"⟩, db)

/-! ### Helper lemmas -/

/-- `repChar` distributes over list concatenation. -/
theorem repChar_append (c : Char) (rep l1 l2 : List Char) :
    repChar c rep (l1 ++ l2) = repChar c rep l1 ++ repChar c rep l2 := by
  induction l1 with
  | nil => rfl
  | cons x xs ih => simp [repChar, ih]

/-- The four replacement passes of `sanitizeInput`, as one function. -/
def repChain (l : List Char) : List Char :=
  repChar quoteS "&#39;".data
    (repChar quoteD "&quot;".data
      (repChar '>' "&gt;".data
        (repChar '<' "&lt;".data l)))

theorem repChain_append (l1 l2 : List Char) :
    repChain (l1 ++ l2) = repChain l1 ++ repChain l2 := by
  simp [repChain, repChar_append]

theorem repChain_single (c : Char) : repChain [c] = escChar4 c := by
  by_cases h1 : c = '<'
  · subst h1; decide
  by_cases h2 : c = '>'
  · subst h2; decide
  by_cases h3 : c = quoteD
  · subst h3; decide
  by_cases h4 : c = quoteS
  · subst h4; decide
  simp [repChain, repChar, escChar4, h1, h2, h3, h4]

/-- The sequential replacements of `sanitizeInput` equal a single
character-wise escaping pass: since no replacement output contains a
character that a later pass replaces, nothing is double-escaped. -/
theorem repChain_eq_escapeHtml4 (l : List Char) : repChain l = escapeHtml4 l := by
  induction l with
  | nil => rfl
  | cons c cs ih =>
    have h : c :: cs = [c] ++ cs := rfl
    rw [h, repChain_append, repChain_single, ih]
    rfl

/-- The resolved admin secret is never the empty string. -/
theorem resolveSecret_ne_empty (env : Env) : resolveSecret env ≠ "" := by
  unfold resolveSecret
  cases env.adminSecretKey with
  | none => decide
  | some s =>
    show (if s = "" then "admin-secret-key" else s) ≠ ""
    by_cases h : s = ""
    · rw [if_pos h]; decide
    · rw [if_neg h]; exact h

/-- The admin guard admits exactly the resolved secret: falsiness of
the supplied value never lets anything extra through, because the
resolved secret is itself never empty. -/
theorem isAuthorized_iff (sec : Option String) (env : Env) :
    isAuthorized sec env = true ↔ sec = some (resolveSecret env) := by
  unfold isAuthorized falsyStr
  match sec with
  | none => simp
  | some s =>
    constructor
    · intro h
      simp only [Bool.and_eq_true, Bool.not_eq_true', beq_eq_false_iff_ne, beq_iff_eq,
        Option.getD_some] at h
      exact congrArg some h.2
    · intro h
      have hs : s = resolveSecret env := by injection h
      subst hs
      simp [beq_eq_false_iff_ne, resolveSecret_ne_empty env]

/-- Computation of the DELETE route pattern on a pathname of the form
`/api/comments/<seg>`. -/
theorem routeDelete_append (seg : String) :
    routeDelete ("/api/comments/" ++ seg) =
      if !seg.data.isEmpty && seg.data.all Char.isDigit then some seg else none :=
  rfl

/-- A pathname `/api/comments/<seg>` never equals `/api/comments`. -/
theorem path_append_ne_comments (seg : String) :
    ("/api/comments/" ++ seg) ≠ "/api/comments" := by
  intro h
  have hl := congrArg String.length h
  rw [String.length_append, show ("/api/comments/" : String).length = 14 from rfl,
    show ("/api/comments" : String).length = 13 from rfl] at hl
  omega

/-- Router dispatch for `DELETE /api/comments/<seg>`: the handler is
reached exactly when `<seg>` is one or more digits; otherwise the
request falls through to the generic fallback response. -/
theorem router_delete_eq (seg : String) (env : Env) (db : DB)
    (pu sec : Option String) (body : Option CommentBody) :
    router .delete ("/api/comments/" ++ seg) pu sec body env db =
      if !seg.data.isEmpty && seg.data.all Char.isDigit
      then deleteComment sec env seg db
      else (⟨200, .text "Blog Comment System API"⟩, db) := by
  unfold router
  rw [if_neg (by decide : ¬(Method.delete = Method.options)),
    if_neg (path_append_ne_comments seg),
    if_neg (fun h => Method.noConfusion h.2 :
      ¬(("/api/comments/" ++ seg) = "/api/comments/all" ∧ Method.delete = Method.get)),
    routeDelete_append seg]
  by_cases h : (!seg.data.isEmpty && seg.data.all Char.isDigit) = true
  · rw [if_pos h, if_pos h]
  · rw [if_neg h, if_neg h]
    rw [if_neg (fun hc => Method.noConfusion hc.2 :
        ¬(("/api/comments/" ++ seg) = "/admin" ∧ Method.delete = Method.get)),
      if_neg (fun hc => Method.noConfusion hc.2 :
        ¬(("/api/comments/" ++ seg) = "/comment-widget" ∧ Method.delete = Method.get))]

/-- Dropping a prefix twice is the same as dropping it once. -/
theorem dropWhile_idem (p : α → Bool) (l : List α) :
    (l.dropWhile p).dropWhile p = l.dropWhile p := by
  induction l with
  | nil => rfl
  | cons a as ih =>
    rw [List.dropWhile_cons]
    by_cases h : p a = true
    · rw [if_pos h]
      exact ih
    · rw [if_neg h, List.dropWhile_cons, if_neg h]

/-- The head surviving `dropWhile` fails the predicate. -/
theorem head?_dropWhile_false (p : α → Bool) (l : List α) (x : α)
    (h : (l.dropWhile p).head? = some x) : p x = false := by
  induction l with
  | nil => cases h
  | cons a as ih =>
    rw [List.dropWhile_cons] at h
    by_cases ha : p a = true
    · rw [if_pos ha] at h
      exact ih h
    · rw [if_neg ha] at h
      cases h
      exact Bool.eq_false_iff.mpr ha

/-- JavaScript trimming is idempotent. -/
theorem jsTrim_idem (l : List Char) : jsTrim (jsTrim l) = jsTrim l := by
  unfold jsTrim
  set y := l.dropWhile jsWs with hy
  set m := (y.reverse.dropWhile jsWs).reverse with hm
  have hdwm : m.dropWhile jsWs = m := by
    cases hh : m.head? with
    | none =>
      rw [List.head?_eq_none_iff] at hh
      rw [hh]
      rfl
    | some x =>
      have hx : jsWs x = false := by
        rw [hm, List.head?_reverse] at hh
        obtain ⟨t, ht⟩ := List.dropWhile_suffix (l := y.reverse) (p := jsWs)
        have hnn : y.reverse.dropWhile jsWs ≠ [] := by
          intro hz
          rw [hz] at hh
          cases hh
        have happ := List.getLast?_append_of_ne_nil t hnn
        rw [ht] at happ
        have hh3 : y.reverse.getLast? = some x := by
          rw [happ]
          exact hh
        have hh2 : y.head? = some x := by
          rw [← List.getLast?_reverse]
          exact hh3
        exact head?_dropWhile_false jsWs l x (hy ▸ hh2)
      cases hmm : m with
      | nil => rfl
      | cons a as =>
        rw [hmm] at hh
        cases hh
        rw [List.dropWhile_cons, if_neg (by rw [hx]; exact Bool.false_ne_true)]
  rw [hdwm, hm, List.reverse_reverse, dropWhile_idem]

/-- `jsTrimStr` is idempotent. -/
theorem jsTrimStr_idem (s : String) : jsTrimStr (jsTrimStr s) = jsTrimStr s :=
  congrArg String.mk (jsTrim_idem s.data)

/-- Sanitizing a pre-trimmed string equals sanitizing the raw string:
`sanitizeInput` trims first anyway. -/
theorem sanitizeInput_trim (s : String) :
    sanitizeInput (jsTrimStr s) = sanitizeInput s := by
  unfold sanitizeInput jsTrimStr
  rw [show (String.mk (jsTrim s.data)).data = jsTrim s.data from rfl, jsTrim_idem]

/-- A missing or incorrect secret makes `deleteComment` answer 401
before anything else is looked at. -/
theorem deleteComment_unauth (sec : Option String) (env : Env) (cid : String)
    (db : DB) (h : sec ≠ some (resolveSecret env)) :
    deleteComment sec env cid db = (⟨401, .jsonError "Unauthorized"⟩, db) := by
  have hfalse : isAuthorized sec env = false :=
    Bool.eq_false_iff.mpr (fun ha => h ((isAuthorized_iff sec env).mp ha))
  simp [deleteComment, hfalse]

/-- With the correct secret and a digit id that matches no row,
`deleteComment` answers 404. -/
theorem deleteComment_notfound (sec : Option String) (env : Env) (cid : String)
    (db : DB) (hs : sec = some (resolveSecret env)) (h1 : cid ≠ "")
    (h2 : cid.data.all Char.isDigit = true)
    (hnone : ∀ r ∈ db.rows, r.id ≠ digitsToNat cid) :
    deleteComment sec env cid db = (⟨404, .jsonError "Comment not found"⟩, db) := by
  have hauth : isAuthorized sec env = true := (isAuthorized_iff sec env).mpr hs
  have hc1 : (cid == "") = false := beq_eq_false_iff_ne.mpr h1
  have hany : db.rows.any (fun r => r.id == digitsToNat cid) = false := by
    rw [List.any_eq_false]
    intro r hr
    simpa using hnone r hr
  simp [deleteComment, hauth, hc1, h2, hany]

/-- With the correct secret, `deleteComment` never answers 401. -/
theorem deleteComment_auth_not401 (sec : Option String) (env : Env) (cid : String)
    (db : DB) (hs : sec = some (resolveSecret env)) :
    (deleteComment sec env cid db).1.status ≠ 401 := by
  have hauth : isAuthorized sec env = true := (isAuthorized_iff sec env).mpr hs
  simp only [deleteComment, hauth, Bool.not_true, Bool.false_eq_true, if_false]
  split
  · show (400 : Nat) ≠ 401
    decide
  · split
    · show (200 : Nat) ≠ 401
      decide
    · show (404 : Nat) ≠ 401
      decide

/-! ### Claim theorems -/

/-- C1, counterexample: `sanitizeInput` does not escape `&`. On the
input `"&"` the claimed sanitizer produces `"&amp;"`, the code
returns `"&"` unchanged. -/
theorem sanitizeInput_amp_counterexample :
    sanitizeInput "&" = "&" ∧ ("&" : String) ≠ "&amp;" := by
  exact ⟨by decide, by decide⟩

/-- C1 (amended): for every input string, `sanitizeInput` first trims
leading/trailing whitespace and then escapes, character by character,
exactly the four HTML-significant characters `<`, `>`, `"`, `'` to
their named character references; every other character — in
particular `&` — is kept unchanged, and no produced entity is
double-escaped. -/
theorem sanitizeInput_correct (s : String) :
    sanitizeInput s = String.mk (escapeHtml4 (jsTrim s.data)) :=
  congrArg String.mk (repChain_eq_escapeHtml4 (jsTrim s.data))

/-- C2: evaluation of the code at the failing environment. The
worker's secret resolution reads only `env.ADMIN_SECRET_KEY` and the
hardcoded default; when the durable KV store holds `kv-secret` under
the well-known key while the static configuration holds
`env-secret`, the spec's three-tier chain resolves to `kv-secret`,
but the code resolves to `env-secret` — no KV namespace is ever
consulted in src/index.js. -/
theorem resolveSecret_ignores_kv :
    resolveSecret ⟨some "env-secret"⟩ = "env-secret" ∧
    resolveSecretSpec (some "kv-secret") (some "env-secret") = "kv-secret" ∧
    ("env-secret" : String) ≠ "kv-secret" :=
  ⟨rfl, rfl, by decide⟩

/-- C3: evaluation of the code at the failing input. `POST /setup` —
with any body, any environment, any database — falls through every
route of the worker and receives the generic 200 fallback response;
no validation, no authentication and no secret update happen, against
the documented `/setup` contract (400 for a short `newSecret`, 401
on a current-secret mismatch, 200 with an admin URL on success). -/
theorem setup_route_fallback (env : Env) (db : DB) (pu sec : Option String)
    (body : Option CommentBody) :
    router .post "/setup" pu sec body env db =
      (⟨200, .text "Blog Comment System API"⟩, db) :=
  rfl

/-- C5: for `DELETE /api/comments/:id` (with `:id` a digit segment,
as matched by the route), authorization is checked before existence:
a missing or incorrect secret yields 401 whatever the database
contains, and the correct secret with an id matching no row yields
404. -/
theorem delete_auth_before_existence (env : Env) (db : DB) (seg : String)
    (pu sec : Option String) (body : Option CommentBody)
    (hdig : seg.data ≠ [] ∧ seg.data.all Char.isDigit = true) :
    (sec ≠ some (resolveSecret env) →
      (router .delete ("/api/comments/" ++ seg) pu sec body env db).1 =
        ⟨401, .jsonError "Unauthorized"⟩) ∧
    (sec = some (resolveSecret env) → (∀ r ∈ db.rows, r.id ≠ digitsToNat seg) →
      (router .delete ("/api/comments/" ++ seg) pu sec body env db).1 =
        ⟨404, .jsonError "Comment not found"⟩) := by
  obtain ⟨h1, h2⟩ := hdig
  have hemp : seg.data.isEmpty = false := by
    cases hd : seg.data with
    | nil => exact absurd hd h1
    | cons a l => rfl
  have hne : seg ≠ "" := by
    intro hs
    rw [hs] at h1
    exact h1 rfl
  have hroute : router .delete ("/api/comments/" ++ seg) pu sec body env db =
      deleteComment sec env seg db := by
    rw [router_delete_eq, if_pos (by rw [hemp, h2]; rfl)]
  constructor
  · intro h
    rw [hroute, deleteComment_unauth sec env seg db h]
  · intro hs hnone
    rw [hroute, deleteComment_notfound sec env seg db hs hne h2 hnone]

/-- C5, witness: deleting the nonexistent id 9999999 over a one-row
database gives 401 under a wrong secret and 404 under the correct
one. -/
theorem delete_auth_before_existence_witness :
    (router .delete ("/api/comments/" ++ "9999999") none (some "wrong") none
        ⟨some "s3cret12"⟩ ⟨[⟨1, "u", "a", "c", 0, "approved"⟩], 2, 7⟩).1 =
      ⟨401, .jsonError "Unauthorized"⟩ ∧
    (router .delete ("/api/comments/" ++ "9999999") none (some "s3cret12") none
        ⟨some "s3cret12"⟩ ⟨[⟨1, "u", "a", "c", 0, "approved"⟩], 2, 7⟩).1 =
      ⟨404, .jsonError "Comment not found"⟩ := by
  refine ⟨?_, ?_⟩
  · exact (delete_auth_before_existence ⟨some "s3cret12"⟩
      ⟨[⟨1, "u", "a", "c", 0, "approved"⟩], 2, 7⟩ "9999999" none (some "wrong") none
      ⟨by decide, by decide⟩).1 (by decide)
  · exact (delete_auth_before_existence ⟨some "s3cret12"⟩
      ⟨[⟨1, "u", "a", "c", 0, "approved"⟩], 2, 7⟩ "9999999" none (some "s3cret12") none
      ⟨by decide, by decide⟩).2 (by decide) (by decide)

/-- C6, counterexample: `DELETE /api/comments/abc` — a non-numeric id
— is answered by the generic 200 fallback response, not by the
claimed 400 invalid-id error (the route regex never dispatches it to
the handler, whose 400 branch is unreachable). -/
theorem delete_nonnumeric_counterexample :
    (router .delete "/api/comments/abc" none (some "admin-secret-key") none
        ⟨none⟩ ⟨[], 1, 0⟩).1 = ⟨200, .text "Blog Comment System API"⟩ ∧
    (router .delete "/api/comments/abc" none (some "admin-secret-key") none
        ⟨none⟩ ⟨[], 1, 0⟩).1.status ≠ 400 :=
  ⟨rfl, by decide⟩

/-- C6 (amended): a DELETE whose `:id` segment does not match `^\d+$`
never reaches the delete handler; the router answers it with the
generic 200 fallback response, database untouched. -/
theorem delete_nonnumeric_fallback (seg : String) (env : Env) (db : DB)
    (pu sec : Option String) (body : Option CommentBody)
    (h : ¬(seg.data ≠ [] ∧ seg.data.all Char.isDigit = true)) :
    router .delete ("/api/comments/" ++ seg) pu sec body env db =
      (⟨200, .text "Blog Comment System API"⟩, db) := by
  rw [router_delete_eq, if_neg ?hc]
  case hc =>
    intro hcond
    rw [Bool.and_eq_true] at hcond
    obtain ⟨hc1, hc2⟩ := hcond
    apply h
    refine ⟨?_, hc2⟩
    intro hnil
    rw [hnil] at hc1
    exact absurd hc1 (by decide)

/-- C6, witness: the empty id segment also gets the fallback. -/
theorem delete_nonnumeric_fallback_witness :
    router .delete ("/api/comments/" ++ "") none none none ⟨none⟩ ⟨[], 1, 0⟩ =
      (⟨200, .text "Blog Comment System API"⟩, ⟨[], 1, 0⟩) :=
  delete_nonnumeric_fallback "" ⟨none⟩ ⟨[], 1, 0⟩ none none none (by decide)

/-- C10: whenever `ADMIN_SECRET_KEY` is unset or the empty string,
the resolved secret is the hardcoded `admin-secret-key`, and each
admin-gated operation — `DELETE /api/comments/:id`,
`GET /api/comments/all`, `GET /admin` — authorizes exactly the
requests supplying that development default. -/
theorem default_secret_reachable (env : Env)
    (hdef : env.adminSecretKey = none ∨ env.adminSecretKey = some "")
    (sec : Option String) (db : DB) (cid : String) :
    resolveSecret env = "admin-secret-key" ∧
    ((deleteComment sec env cid db).1.status ≠ 401 ↔ sec = some "admin-secret-key") ∧
    ((getAllComments sec env db).status ≠ 401 ↔ sec = some "admin-secret-key") ∧
    (∀ pu body, (router .get "/admin" pu sec body env db).1.status ≠ 401 ↔
      sec = some "admin-secret-key") := by
  have hres : resolveSecret env = "admin-secret-key" := by
    rcases hdef with h | h <;> simp [resolveSecret, h]
  refine ⟨hres, ?_, ?_, ?_⟩
  · constructor
    · intro hne
      by_contra hsec
      rw [← hres] at hsec
      have := deleteComment_unauth sec env cid db hsec
      rw [this] at hne
      exact hne rfl
    · intro hsec
      exact deleteComment_auth_not401 sec env cid db (by rw [hres]; exact hsec)
  · by_cases hauth : isAuthorized sec env = true
    · have hsec := (isAuthorized_iff sec env).mp hauth
      rw [hres] at hsec
      subst hsec
      simp [getAllComments, hauth]
    · have hfalse : isAuthorized sec env = false := Bool.eq_false_iff.mpr hauth
      simp only [getAllComments, hfalse, Bool.not_false, if_true]
      constructor
      · intro hne
        exact absurd rfl hne
      · intro hsec
        rw [hsec, ← hres] at hauth
        exact absurd ((isAuthorized_iff _ env).mpr rfl) hauth
  · intro pu body
    have hadmin : router .get "/admin" pu sec body env db = (adminRoute sec env, db) := rfl
    rw [hadmin]
    by_cases hauth : isAuthorized sec env = true
    · have hsec := (isAuthorized_iff sec env).mp hauth
      rw [hres] at hsec
      subst hsec
      simp [adminRoute, hauth]
    · have hfalse : isAuthorized sec env = false := Bool.eq_false_iff.mpr hauth
      simp only [adminRoute, hfalse, Bool.not_false, if_true]
      constructor
      · intro hne
        exact absurd rfl hne
      · intro hsec
        rw [hsec, ← hres] at hauth
        exact absurd ((isAuthorized_iff _ env).mpr rfl) hauth

/-- An empty `page_url` validation result means the field was
present, non-empty and a valid URL. -/
theorem validatePageUrl_nil_facts (pu : String)
    (h : validatePageUrl (some pu) = []) : pu ≠ "" ∧ isValidUrl pu = true := by
  unfold validatePageUrl at h
  split at h
  · cases h
  · split at h
    · cases h
    · rename_i hfals hval
      constructor
      · intro he
        exact hfals (by simp [falsyStr, he])
      · cases hb : isValidUrl pu
        · exact absurd (show (!isValidUrl ((some pu).getD "")) = true by
            rw [Option.getD_some, hb]; rfl) hval
        · rfl

/-- Re-selecting by `last_row_id` after the INSERT finds exactly the
new row, provided all prior ids are below the AUTOINCREMENT counter. -/
theorem find?_insert (b : CommentBody) (db : DB)
    (hids : ∀ r ∈ db.rows, r.id < db.nextId) :
    (insertDB b db).rows.find? (fun r => r.id == db.nextId) = some (mkRow b db) := by
  show (db.rows ++ [mkRow b db]).find? (fun r => r.id == db.nextId) = some (mkRow b db)
  rw [List.find?_append]
  have h1 : db.rows.find? (fun r => r.id == db.nextId) = none := by
    rw [List.find?_eq_none]
    intro x hx
    have := hids x hx
    simp only [beq_iff_eq]
    omega
  rw [h1, Option.none_or]
  simp [List.find?, mkRow]

/-- A valid submission produces a 201 echoing the inserted row. -/
theorem createComment_success (b : CommentBody) (db : DB)
    (hvalid : validateSubmission b = [])
    (hids : ∀ r ∈ db.rows, r.id < db.nextId) :
    createComment (some b) db =
      (⟨201, .jsonCreated (some (mkRow b db))⟩, insertDB b db) := by
  simp only [createComment]
  rw [if_neg (fun h => h hvalid), find?_insert b db hids]

/-- C7: validation of `POST /api/comments` checks every field
without short-circuiting across fields, collects every violation into
one list joined into a single combined 400 message, and a failing
submission is rejected with the database untouched, before any store
interaction. -/
theorem validation_collects_all (b : CommentBody) :
    (validateSubmission b ≠ [] → ∀ db : DB,
      createComment (some b) db =
        (⟨400, .jsonError (String.intercalate "; " (validateSubmission b))⟩, db)) ∧
    validateSubmission b =
      validatePageUrl b.page_url ++ validateName b.author_name ++
        validateContent b.comment_content ∧
    (falsyStr b.page_url = true → "page_url is required" ∈ validateSubmission b) ∧
    (falsyStr b.author_name = true → "author_name is required" ∈ validateSubmission b) ∧
    (falsyStr b.comment_content = true →
      "comment_content is required" ∈ validateSubmission b) ∧
    (∀ pu, b.page_url = some pu → pu ≠ "" → isValidUrl pu = false →
      "Invalid page_url format" ∈ validateSubmission b) ∧
    (∀ nm, b.author_name = some nm → nm ≠ "" → 100 < (jsTrimStr nm).length →
      "author_name must be 100 characters or less" ∈ validateSubmission b) ∧
    (∀ ct, b.comment_content = some ct → ct ≠ "" → 1000 < (jsTrimStr ct).length →
      "comment_content must be 1000 characters or less" ∈ validateSubmission b) := by
  refine ⟨?_, rfl, ?_, ?_, ?_, ?_, ?_, ?_⟩
  · intro h db
    simp [createComment, h]
  · intro h
    simp [validateSubmission, validatePageUrl, h]
  · intro h
    simp [validateSubmission, validateName, h]
  · intro h
    simp [validateSubmission, validateContent, h]
  · intro pu hpu hne hval
    simp [validateSubmission, validatePageUrl, falsyStr, hpu, hne, hval]
  · intro nm hnm hne hlen
    have h0 : ¬((jsTrimStr nm).length = 0) := by omega
    simp [validateSubmission, validateName, falsyStr, hnm, hne, h0, hlen]
  · intro ct hct hne hlen
    have h0 : ¬((jsTrimStr ct).length = 0) := by omega
    simp [validateSubmission, validateContent, falsyStr, hct, hne, h0, hlen]

/-- C7, witness: a submission violating one rule per field is
rejected with the three messages joined into one 400 error, database
untouched. -/
theorem validation_collects_all_witness :
    createComment (some ⟨some "not a url", some " ", none⟩) ⟨[], 1, 0⟩ =
      (⟨400, .jsonError (String.intercalate "; "
        (validateSubmission ⟨some "not a url", some " ", none⟩))⟩, ⟨[], 1, 0⟩) :=
  (validation_collects_all ⟨some "not a url", some " ", none⟩).1 (by decide) ⟨[], 1, 0⟩

/-- C8: for every database state and valid page URL, the GET listing
returns, with a 200 status, exactly the rows whose `page_url` matches
and whose status is `approved` (a permutation of that filter), in
ascending `(created_at, id)` order, and the empty sequence — not an
error — when no such row exists. -/
theorem listByPage_spec (db : DB) (pu : String) (hvalid : isValidUrl pu = true) :
    ∃ l : List Row,
      getComments (some pu) db = ⟨200, .jsonComments l⟩ ∧
      l.Perm (db.rows.filter (fun r => r.page_url == pu && r.status == "approved")) ∧
      l.Sorted rowLe ∧
      (db.rows.filter (fun r => r.page_url == pu && r.status == "approved") = [] →
        l = []) := by
  have hne : pu ≠ "" := by
    intro h
    subst h
    exact absurd hvalid (by decide)
  have hfals : falsyStr (some pu) = false := by
    simp [falsyStr, hne]
  refine ⟨List.insertionSort rowLe
      (db.rows.filter (fun r => r.page_url == pu && r.status == "approved")),
    ?_, ?_, ?_, ?_⟩
  · simp [getComments, hfals, hvalid]
  · exact List.perm_insertionSort rowLe _
  · exact List.sorted_insertionSort rowLe _
  · intro h
    rw [h]
    rfl

/-- C8, witness: a three-row database with a `created_at` tie; the
listing keeps the matching approved rows sorted with the tie broken
by id. -/
theorem listByPage_spec_witness :
    ∃ l : List Row,
      getComments (some "https://example.com/post")
          ⟨[⟨1, "https://example.com/post", "A", "x", 5, "approved"⟩,
            ⟨2, "https://example.com/other", "B", "y", 3, "approved"⟩,
            ⟨3, "https://example.com/post", "C", "z", 5, "approved"⟩], 4, 9⟩ =
        ⟨200, .jsonComments l⟩ ∧
      l.Perm ((⟨[⟨1, "https://example.com/post", "A", "x", 5, "approved"⟩,
            ⟨2, "https://example.com/other", "B", "y", 3, "approved"⟩,
            ⟨3, "https://example.com/post", "C", "z", 5, "approved"⟩], 4, 9⟩ : DB).rows.filter
          (fun r => r.page_url == "https://example.com/post" && r.status == "approved")) ∧
      l.Sorted rowLe ∧
      ((⟨[⟨1, "https://example.com/post", "A", "x", 5, "approved"⟩,
            ⟨2, "https://example.com/other", "B", "y", 3, "approved"⟩,
            ⟨3, "https://example.com/post", "C", "z", 5, "approved"⟩], 4, 9⟩ : DB).rows.filter
          (fun r => r.page_url == "https://example.com/post" && r.status == "approved") = [] →
        l = []) :=
  listByPage_spec _ "https://example.com/post" (by decide)

/-- C4, counterexample: the submission with
`page_url = "https://example.com/a<b"` is valid (its URL parses), the
POST answers 201 — but the row is stored under the sanitized URL
`https://example.com/a&lt;b`, so the subsequent GET with the same
`page_url` returns the empty list, which does not include the new
comment. -/
theorem createThenGet_counterexample :
    validateSubmission ⟨some "https://example.com/a<b", some "Alice", some "Hello"⟩ = [] ∧
    (createComment (some ⟨some "https://example.com/a<b", some "Alice", some "Hello"⟩)
        ⟨[], 1, 10⟩).1.status = 201 ∧
    getComments (some "https://example.com/a<b")
        (createComment (some ⟨some "https://example.com/a<b", some "Alice", some "Hello"⟩)
          ⟨[], 1, 10⟩).2 =
      ⟨200, .jsonComments []⟩ := by
  refine ⟨by decide, by decide, by decide⟩

/-- C4 (amended): for every valid submission whose `page_url` is left
unchanged by sanitization (no trimming and no escaping applies to
it), `POST /api/comments` answers
201 with the created row, and the subsequent
`GET /api/comments?page_url=<the same>` includes that row, whose
`author_name` and `comment_content` are the sanitized (HTML-escaped)
forms of the submitted input. -/
theorem createThenGet_roundtrip (db : DB) (b : CommentBody) (pu nm ct : String)
    (hpu : b.page_url = some pu) (hnm : b.author_name = some nm)
    (hct : b.comment_content = some ct)
    (hvalid : validateSubmission b = [])
    (hsan : sanitizeInput pu = pu)
    (hids : ∀ r ∈ db.rows, r.id < db.nextId) :
    ∃ (newRow : Row) (db2 : DB),
      createComment (some b) db = (⟨201, .jsonCreated (some newRow)⟩, db2) ∧
      newRow.id = db.nextId ∧
      newRow.author_name = sanitizeInput nm ∧
      newRow.comment_content = sanitizeInput ct ∧
      newRow.page_url = pu ∧
      ∃ l, getComments (some pu) db2 = ⟨200, .jsonComments l⟩ ∧ newRow ∈ l := by
  have hvn : validatePageUrl b.page_url = [] := by
    have h1 := hvalid
    unfold validateSubmission at h1
    exact (List.append_eq_nil.mp (List.append_eq_nil.mp h1).1).1
  rw [hpu] at hvn
  obtain ⟨hpune, hurl⟩ := validatePageUrl_nil_facts pu hvn
  have hpage : (mkRow b db).page_url = pu := by
    show sanitizeInput (jsTrimStr (b.page_url.getD "")) = pu
    rw [hpu, Option.getD_some, sanitizeInput_trim, hsan]
  refine ⟨mkRow b db, insertDB b db, createComment_success b db hvalid hids,
    rfl, ?_, ?_, hpage, ?_⟩
  · show sanitizeInput (jsTrimStr (b.author_name.getD "")) = sanitizeInput nm
    rw [hnm, Option.getD_some, sanitizeInput_trim]
  · show sanitizeInput (jsTrimStr (b.comment_content.getD "")) = sanitizeInput ct
    rw [hct, Option.getD_some, sanitizeInput_trim]
  · have hfals : falsyStr (some pu) = false := by
      simp [falsyStr, hpune]
    refine ⟨List.insertionSort rowLe ((insertDB b db).rows.filter
        (fun r => r.page_url == pu && r.status == "approved")), ?_, ?_⟩
    · simp [getComments, hfals, hurl]
    · rw [List.mem_insertionSort, List.mem_filter]
      constructor
      · show mkRow b db ∈ db.rows ++ [mkRow b db]
        exact List.mem_append_right _ (List.mem_singleton.mpr rfl)
      · simp [hpage]
        rfl

/-- C4, witness: a clean submission round-trips; the created row
shows up in the subsequent GET with sanitized fields. -/
theorem createThenGet_roundtrip_witness :
    ∃ (newRow : Row) (db2 : DB),
      createComment (some ⟨some "https://example.com/post", some "Alice", some "Hi"⟩)
          ⟨[], 1, 5⟩ = (⟨201, .jsonCreated (some newRow)⟩, db2) ∧
      newRow.id = (⟨[], 1, 5⟩ : DB).nextId ∧
      newRow.author_name = sanitizeInput "Alice" ∧
      newRow.comment_content = sanitizeInput "Hi" ∧
      newRow.page_url = "https://example.com/post" ∧
      ∃ l, getComments (some "https://example.com/post") db2 =
          ⟨200, .jsonComments l⟩ ∧ newRow ∈ l :=
  createThenGet_roundtrip ⟨[], 1, 5⟩
    ⟨some "https://example.com/post", some "Alice", some "Hi"⟩
    "https://example.com/post" "Alice" "Hi" rfl rfl rfl (by decide)
    (by decide) (by simp)

/-- C10, witness: with `ADMIN_SECRET_KEY` unset, the default secret
is `admin-secret-key` and it opens the admin listing. -/
theorem default_secret_reachable_witness :
    resolveSecret ⟨none⟩ = "admin-secret-key" ∧
    ((getAllComments (some "admin-secret-key") ⟨none⟩ ⟨[], 1, 0⟩).status ≠ 401 ↔
      (some "admin-secret-key" : Option String) = some "admin-secret-key") :=
  ⟨(default_secret_reachable ⟨none⟩ (Or.inl rfl) (some "admin-secret-key")
      ⟨[], 1, 0⟩ "1").1,
   (default_secret_reachable ⟨none⟩ (Or.inl rfl) (some "admin-secret-key")
      ⟨[], 1, 0⟩ "1").2.2.1⟩

end CommentSystem

